import Mathlib

set_option maxHeartbeats 1000000

/-- Embedding of a Python runtime value as the rating code in src/bot.py can
observe it. `vnone` is Python `None`; `vnum q` is an `int` or `float` whose
exact value is `q` (machine floats are idealised as rationals); `vstrNum q`
is a string that `float()` accepts, yielding `q`; `vstrBad s` is a string
that `float()` rejects with a `ValueError`; `vother` is any other object,
rejected by `float()` with a `TypeError`. -/
inductive PyValue where
  | vnone : PyValue
  | vnum (q : ℚ) : PyValue
  | vstrNum (q : ℚ) : PyValue
  | vstrBad (s : String) : PyValue
  | vother : PyValue
  deriving DecidableEq

/-- Property records (`Dict` in src/bot.py) are embedded as association lists
with first-match lookup; a Python dict has unique keys, so first-match lookup
coincides with dict lookup. -/
abbrev Record := List (String × PyValue)

/-- Lookup of a key in an association list, `some` of the first bound value or
`none`; this is dict key lookup. -/
def alookup {α : Type} (k : String) : List (String × α) → Option α
  | [] => none
  | (a, b) :: l => if k = a then some b else alookup k l

/-- Removal of every binding of a given key, used to state that a piece of
code never consults that key. -/
def eraseKey {α : Type} (k0 : String) : List (String × α) → List (String × α)
  | [] => []
  | (a, b) :: l => if a = k0 then eraseKey k0 l else (a, b) :: eraseKey k0 l

/-- Python `p.get(k, d)`, as used throughout src/bot.py. -/
def pyGet (p : Record) (k : String) (d : PyValue) : PyValue :=
  (alookup k p).getD d

/-- Python `float(r)` on an embedded value: `some q` when the call succeeds
with value `q`, `none` when it raises `ValueError` or `TypeError` (as it does
on `None`, non-numeric strings and other objects). -/
def pyFloat : PyValue → Option ℚ
  | .vnone => none
  | .vnum q => some q
  | .vstrNum q => some q
  | .vstrBad _ => none
  | .vother => none

/-- src/bot.py lines 192-207, `get_property_rating`: the alias-resolved reads
`p.get("airbnb_rating", p.get("airbnb"))` and
`p.get("booking_rating", p.get("booking"))`, then the loop that keeps
`float(r)` for every non-`None` candidate whose coercion does not raise, and
finally `0.0` for an empty list and `sum(ratings) / len(ratings)` otherwise. -/
def get_property_rating (p : Record) : ℚ :=
  let airbnb := pyGet p "airbnb_rating" (pyGet p "airbnb" PyValue.vnone)
  let booking := pyGet p "booking_rating" (pyGet p "booking" PyValue.vnone)
  let ratings := [airbnb, booking].filterMap
    (fun r => if r = PyValue.vnone then none else pyFloat r)
  if ratings = [] then 0 else ratings.sum / (ratings.length : ℚ)

/-- Spec-side reading of one sub-rating, following the specification text:
resolve the field through the ordered alias list (first key if present, else
the second), coerce the present value to a float, and silently discard a
value that is absent or not coercible. -/
def specSubRating (p : Record) (k1 k2 : String) : Option ℚ :=
  match alookup k1 p with
  | some v => pyFloat v
  | none =>
    match alookup k2 p with
    | some v => pyFloat v
    | none => none

/-- Spec-side composite score, following the specification text: the
arithmetic mean of the surviving sub-rating values, and exactly `0.0` when no
value survives. -/
def scoreSpec (p : Record) : ℚ :=
  let s := [specSubRating p "airbnb_rating" "airbnb",
            specSubRating p "booking_rating" "booking"].filterMap id
  if s = [] then 0 else s.sum / (s.length : ℚ)

theorem sub_rating_eq (p : Record) (k1 k2 : String) :
    (if pyGet p k1 (pyGet p k2 PyValue.vnone) = PyValue.vnone then none
      else pyFloat (pyGet p k1 (pyGet p k2 PyValue.vnone))) = specSubRating p k1 k2 := by
  unfold pyGet specSubRating
  cases h1 : alookup k1 p with
  | some v => cases v <;> simp [pyFloat]
  | none =>
    cases h2 : alookup k2 p with
    | some v => cases v <;> simp [pyFloat]
    | none => simp [pyFloat]

/-- C1: for every record, the score reads the two sub-rating fields via alias
resolution (`airbnb_rating` then `airbnb`; `booking_rating` then `booking`),
coerces each present value to a float, silently discards values that are
absent or not coercible, and returns the arithmetic mean of the surviving
values, returning exactly `0.0` when no value survives. -/
theorem score_is_mean_of_surviving_aliases (p : Record) :
    get_property_rating p = scoreSpec p := by
  unfold get_property_rating scoreSpec
  simp only [List.filterMap_cons, List.filterMap_nil, id]
  rw [sub_rating_eq p "airbnb_rating" "airbnb", sub_rating_eq p "booking_rating" "booking"]

/-- C8: a record containing only the field `airbnb` set to `v` yields the
same score as a record containing only the field `airbnb_rating` set to the
same `v`. -/
theorem airbnb_alias_same_score (v : PyValue) :
    get_property_rating [("airbnb", v)] = get_property_rating [("airbnb_rating", v)] := by
  cases v <;> rfl

theorem alookup_eraseKey {α : Type} (k k0 : String) (h : k ≠ k0) :
    ∀ l : List (String × α), alookup k (eraseKey k0 l) = alookup k l
  | [] => rfl
  | (a, b) :: l => by
    by_cases ha : a = k0
    · subst ha
      have hk : k ≠ a := h
      simp [eraseKey, alookup, hk, alookup_eraseKey k a h l]
    · simp [eraseKey, alookup, ha, alookup_eraseKey k k0 h l]

theorem alookup_cons_self {α : Type} (k : String) (v : α) (l : List (String × α)) :
    alookup k ((k, v) :: l) = some v := by
  simp [alookup]

theorem alookup_cons_ne {α : Type} (k a : String) (v : α) (l : List (String × α))
    (h : k ≠ a) : alookup k ((a, v) :: l) = alookup k l := by
  simp [alookup, h]

/-- C10: alias fallback in the score is triggered only by key absence, never
by an invalid value. When `airbnb_rating` is bound (heading the record; the
binding order of a dict is irrelevant to `dict.get`), every `airbnb` binding
can be erased without changing the score, and likewise for
`booking_rating` / `booking`; in particular the record
`{airbnb_rating: "bad", airbnb: 4}` scores `0.0`, not `4.0`, and likewise on
the booking side. -/
theorem invalid_rating_blocks_alias_fallback :
    (∀ (v : PyValue) (rest : Record),
      get_property_rating (("airbnb_rating", v) :: rest) =
        get_property_rating (("airbnb_rating", v) :: eraseKey "airbnb" rest)) ∧
    (∀ (v : PyValue) (rest : Record),
      get_property_rating (("booking_rating", v) :: rest) =
        get_property_rating (("booking_rating", v) :: eraseKey "booking" rest)) ∧
    get_property_rating [("airbnb_rating", PyValue.vstrBad "bad"), ("airbnb", PyValue.vnum 4)] = 0 ∧
    get_property_rating [("booking_rating", PyValue.vstrBad "bad"), ("booking", PyValue.vnum 4)] = 0 := by
  refine ⟨?_, ?_, by decide, by decide⟩
  · intro v rest
    have h1 : alookup "airbnb_rating" (("airbnb_rating", v) :: rest) = some v :=
      alookup_cons_self _ _ _
    have h2 : alookup "airbnb_rating" (("airbnb_rating", v) :: eraseKey "airbnb" rest) = some v :=
      alookup_cons_self _ _ _
    have h3 : alookup "booking_rating" (("airbnb_rating", v) :: eraseKey "airbnb" rest) =
        alookup "booking_rating" (("airbnb_rating", v) :: rest) := by
      rw [alookup_cons_ne _ _ _ _ (by decide), alookup_cons_ne _ _ _ _ (by decide),
        alookup_eraseKey _ _ (by decide)]
    have h4 : alookup "booking" (("airbnb_rating", v) :: eraseKey "airbnb" rest) =
        alookup "booking" (("airbnb_rating", v) :: rest) := by
      rw [alookup_cons_ne _ _ _ _ (by decide), alookup_cons_ne _ _ _ _ (by decide),
        alookup_eraseKey _ _ (by decide)]
    unfold get_property_rating pyGet
    rw [h1, h2, h3, h4]
    simp only [Option.getD_some]
  · intro v rest
    have h1 : alookup "booking_rating" (("booking_rating", v) :: rest) = some v :=
      alookup_cons_self _ _ _
    have h2 : alookup "booking_rating" (("booking_rating", v) :: eraseKey "booking" rest) = some v :=
      alookup_cons_self _ _ _
    have h3 : alookup "airbnb_rating" (("booking_rating", v) :: eraseKey "booking" rest) =
        alookup "airbnb_rating" (("booking_rating", v) :: rest) := by
      rw [alookup_cons_ne _ _ _ _ (by decide), alookup_cons_ne _ _ _ _ (by decide),
        alookup_eraseKey _ _ (by decide)]
    have h4 : alookup "airbnb" (("booking_rating", v) :: eraseKey "booking" rest) =
        alookup "airbnb" (("booking_rating", v) :: rest) := by
      rw [alookup_cons_ne _ _ _ _ (by decide), alookup_cons_ne _ _ _ _ (by decide),
        alookup_eraseKey _ _ (by decide)]
    unfold get_property_rating pyGet
    rw [h1, h2, h3, h4]
    simp only [Option.getD_some]

/-- Ordering used by `rated.sort(key=lambda x: x[1], reverse=True)` in
src/bot.py line 213: entry `a` may precede entry `b` exactly when `a`'s
composite score is at least `b`'s. -/
def scoreGE (a b : Record × ℚ) : Prop := b.2 ≤ a.2

instance : DecidableRel scoreGE := fun a b => inferInstanceAs (Decidable (b.2 ≤ a.2))

instance : IsTotal (Record × ℚ) scoreGE := ⟨fun a b => le_total b.2 a.2⟩

instance : IsTrans (Record × ℚ) scoreGE := ⟨fun _ _ _ hab hbc => le_trans hbc hab⟩

/-- src/bot.py lines 210-214, `get_top_rated_properties`: pair every property
with its rating, sort by the score descending — Python `list.sort` is a
stable sort, and with `reverse=True` equal keys still keep their original
order, which is exactly the behaviour of `List.insertionSort scoreGE` — and
return the slice `rated[:limit]`. -/
def get_top_rated_properties (properties : List Record) (limit : Nat) :
    List (Record × ℚ) :=
  let rated := properties.map (fun p => (p, get_property_rating p))
  (rated.insertionSort scoreGE).take limit

theorem filter_orderedInsert_score (c : ℚ) (a : Record × ℚ) :
    ∀ l : List (Record × ℚ),
      (l.orderedInsert scoreGE a).filter (fun e => decide (e.2 = c)) =
        if a.2 = c then a :: l.filter (fun e => decide (e.2 = c))
        else l.filter (fun e => decide (e.2 = c))
  | [] => by
    by_cases hac : a.2 = c <;> simp [List.orderedInsert, List.filter, hac]
  | b :: l => by
    by_cases hab : scoreGE a b
    · rw [List.orderedInsert, if_pos hab]
      by_cases hac : a.2 = c <;> simp [List.filter, hac]
    · rw [List.orderedInsert, if_neg hab]
      by_cases hac : a.2 = c
      · have hbc : ¬ b.2 = c := by
          intro hb
          exact hab (le_of_eq (hac ▸ hb))
        simp [List.filter, hbc, filter_orderedInsert_score c a l, hac]
      · by_cases hbc : b.2 = c <;>
          simp [List.filter, hbc, filter_orderedInsert_score c a l, hac]

theorem filter_insertionSort_score (c : ℚ) :
    ∀ l : List (Record × ℚ),
      (l.insertionSort scoreGE).filter (fun e => decide (e.2 = c)) =
        l.filter (fun e => decide (e.2 = c))
  | [] => rfl
  | a :: l => by
    rw [List.insertionSort, filter_orderedInsert_score c a,
      filter_insertionSort_score c l]
    by_cases hac : a.2 = c <;> simp [List.filter, hac]

/-- C2: the ranked output is sorted non-increasing by composite score, and
entries with equal composite scores appear in the same relative order as in
the input list (the input order of entries is the order of
`properties.map (fun p => (p, get_property_rating p))`). -/
theorem rank_sorted_descending_stable (properties : List Record) (limit : Nat) :
    List.Sorted scoreGE (get_top_rated_properties properties limit) ∧
    ∀ c : ℚ,
      List.Sublist
        ((get_top_rated_properties properties limit).filter (fun e => decide (e.2 = c)))
        ((properties.map (fun p => (p, get_property_rating p))).filter
          (fun e => decide (e.2 = c))) := by
  constructor
  · exact List.Pairwise.sublist (List.take_sublist _ _)
      (List.sorted_insertionSort scoreGE _)
  · intro c
    have h1 : List.Sublist
        ((get_top_rated_properties properties limit).filter (fun e => decide (e.2 = c)))
        (((properties.map (fun p => (p, get_property_rating p))).insertionSort
          scoreGE).filter (fun e => decide (e.2 = c))) :=
      List.Sublist.filter _ (List.take_sublist _ _)
    rwa [filter_insertionSort_score] at h1

/-- C3: the ranked output has length `min limit (number of records)`, every
output entry's record is drawn from the input list, and every output entry
pairs its record with that record's composite score. -/
theorem rank_length_and_pairing (properties : List Record) (limit : Nat) :
    (get_top_rated_properties properties limit).length = min limit properties.length ∧
    (get_top_rated_properties properties limit).map Prod.fst ⊆ properties ∧
    (get_top_rated_properties properties limit).map Prod.snd =
      (get_top_rated_properties properties limit).map
        (fun e => get_property_rating e.1) := by
  refine ⟨?_, ?_, ?_⟩
  · rw [get_top_rated_properties, List.length_take, List.length_insertionSort,
      List.length_map]
  · intro q hq
    simp only [List.mem_map] at hq
    obtain ⟨e, he, rfl⟩ := hq
    have he2 : e ∈ (properties.map (fun p => (p, get_property_rating p))).insertionSort
        scoreGE := (List.take_sublist _ _).mem he
    rw [List.mem_insertionSort] at he2
    simp only [List.mem_map] at he2
    obtain ⟨p, hp, rfl⟩ := he2
    exact hp
  · apply List.map_congr_left
    intro e he
    have he2 : e ∈ (properties.map (fun p => (p, get_property_rating p))).insertionSort
        scoreGE := (List.take_sublist _ _).mem he
    rw [List.mem_insertionSort] at he2
    simp only [List.mem_map] at he2
    obtain ⟨p, hp, rfl⟩ := he2
    rfl

/-- Telegram message max length, src/bot.py line 50. -/
def TELEGRAM_MAX_LEN : Nat := 4000

/-- src/bot.py lines 301-309, `split_and_send`: the chunking loop. The text is
embedded as its list of characters (Python slicing is per character), and
`text[start:start + TELEGRAM_MAX_LEN]` for the running start index is a
`take` after a `drop`, so the loop is the recursion below. The result is the
list of chunks handed to `send_fn`, in sending order. -/
def split_and_send (text : List Char) : List (List Char) :=
  if text = [] then []
  else text.take TELEGRAM_MAX_LEN :: split_and_send (text.drop TELEGRAM_MAX_LEN)
termination_by text.length
decreasing_by
  simp only [List.length_drop, TELEGRAM_MAX_LEN]
  have hpos : 0 < text.length := List.length_pos.mpr (by assumption)
  omega

/-- C4: the chunking loop produces consecutive chunks, each of length at most
`TELEGRAM_MAX_LEN = 4000`, whose in-order concatenation is exactly the
original text (no gaps, no overlaps), and for text of length `L` the number
of chunks sent is `⌈L / 4000⌉`, written here as `(L + 3999) / 4000` in
natural division. -/
theorem split_and_send_chunks_exact (text : List Char) :
    (split_and_send text).flatten = text ∧
    (split_and_send text).length =
      (text.length + (TELEGRAM_MAX_LEN - 1)) / TELEGRAM_MAX_LEN ∧
    (split_and_send text).all
      (fun ch => decide (ch.length ≤ TELEGRAM_MAX_LEN)) = true := by
  induction text using split_and_send.induct with
  | case1 =>
    rw [split_and_send]
    simp [TELEGRAM_MAX_LEN]
  | case2 text hne ih =>
    obtain ⟨ih1, ih2, ih3⟩ := ih
    rw [split_and_send, if_neg hne]
    refine ⟨?_, ?_, ?_⟩
    · simp [ih1]
    · have hpos : 0 < text.length := List.length_pos.mpr hne
      simp only [TELEGRAM_MAX_LEN] at ih2 ⊢
      simp only [List.length_cons, ih2, List.length_drop]
      omega
    · simp only [List.all_cons, ih3, Bool.and_true, decide_eq_true_eq]
      rw [List.length_take]
      exact min_le_left _ _

/-- Embedding of a parsed JSON value, the possible results of `resp.json()`
in src/bot.py. Objects are association lists of fields (dicts have unique
keys, so first-match lookup is dict lookup). -/
inductive JsonVal where
  | jnull : JsonVal
  | jbool (b : Bool) : JsonVal
  | jnum (q : ℚ) : JsonVal
  | jstr (s : String) : JsonVal
  | jlist (items : List JsonVal) : JsonVal
  | jobj (fields : List (String × JsonVal)) : JsonVal

/-- src/bot.py lines 78-85, the body handling of `fetch_all_properties`: a
bare list is returned as is; a dict with a `"data"` key whose value is a list
(`isinstance(data["data"], list)`) yields that list; every other shape yields
the empty list (with a logged warning). -/
def fetch_all_properties_body (data : JsonVal) : List JsonVal :=
  match data with
  | .jlist items => items
  | .jobj fields =>
    match alookup "data" fields with
    | some (.jlist items) => items
    | _ => []
  | _ => []

/-- src/bot.py lines 137-142, the body handling of
`fetch_complaints_for_property`: a bare list is returned as is; a dict with a
`"data"` key yields `data["data"]` with no check that it is a list; every
other shape yields the empty list. -/
def fetch_complaints_body (data : JsonVal) : JsonVal :=
  match data with
  | .jlist _ => data
  | .jobj fields =>
    match alookup "data" fields with
    | some v => v
    | none => .jlist []
  | _ => .jlist []

/-- Spec-side shape accessor: the body itself when it is a bare list. -/
def asBareList : JsonVal → Option (List JsonVal)
  | .jlist items => some items
  | _ => none

/-- Spec-side shape accessor: the value of the `"data"` key when the body is
an object holding that key. -/
def dataField : JsonVal → Option JsonVal
  | .jobj fields => alookup "data" fields
  | _ => none

/-- Spec-side amended body handling for the properties fetcher, following the
amended claim: the body itself when it is a bare list, else the value of the
`"data"` key when that value is a list, else the empty sequence. -/
def propertiesBodySpec (data : JsonVal) : List JsonVal :=
  (asBareList data).getD (((dataField data).bind asBareList).getD [])

/-- Spec-side amended body handling for the complaints fetcher, following the
amended claim: the body itself when it is a bare list, else the value of the
`"data"` key whenever the key is present — whatever the type of that value —
else the empty sequence. -/
def complaintsBodySpec (data : JsonVal) : JsonVal :=
  ((asBareList data).map JsonVal.jlist).getD ((dataField data).getD (JsonVal.jlist []))

/-- C5 counterexample: on the body `{"data": 42}` — an object whose `data`
key does not hold a list, hence one of the claim's "any other body shape"
cases — the complaints fetcher returns the number `42` rather than an empty
sequence, so the claim is false for the complaints fetcher. -/
theorem fetch_body_shape_counterexample :
    fetch_complaints_body (JsonVal.jobj [("data", JsonVal.jnum 42)]) = JsonVal.jnum 42 ∧
    JsonVal.jnum 42 ≠ JsonVal.jlist [] := by
  exact ⟨rfl, fun h => JsonVal.noConfusion h⟩

/-- C5 amended: the properties fetcher returns the body itself when it is a
bare list, the value of the `data` key when the body is an object whose
`data` key holds a list, and an empty sequence for any other body shape; the
complaints fetcher returns the body itself when it is a bare list, the value
of the `data` key whenever the body is an object with a `data` key — whether
or not that value is a list — and an empty sequence otherwise. -/
theorem fetch_body_shape_amended (data : JsonVal) :
    fetch_all_properties_body data = propertiesBodySpec data ∧
    fetch_complaints_body data = complaintsBodySpec data := by
  cases data with
  | jobj fields =>
    cases h : alookup "data" fields with
    | none =>
      simp [fetch_all_properties_body, fetch_complaints_body, propertiesBodySpec,
        complaintsBodySpec, asBareList, dataField, h]
    | some v =>
      cases v <;>
        simp [fetch_all_properties_body, fetch_complaints_body, propertiesBodySpec,
          complaintsBodySpec, asBareList, dataField, h]
  | _ =>
    simp [fetch_all_properties_body, fetch_complaints_body, propertiesBodySpec,
      complaintsBodySpec, asBareList, dataField]

/-- Outcome of the underlying `requests.get` call plus `resp.json()` as the
fetcher observes it: either the request itself raises (network or transport
error), or a response arrives with a status code and a body that either
parses as JSON (`some`) or makes `resp.json()` raise (`none`). -/
inductive HttpOutcome where
  | transportError : HttpOutcome
  | response (status : Nat) (body : Option JsonVal) : HttpOutcome

/-- src/bot.py lines 73-88, `fetch_all_properties`: the whole body is wrapped
in `try`/`except Exception`, which catches the raises of `requests.get`, of
`resp.raise_for_status()` — which raises exactly for status codes 400-599 —
and of `resp.json()`, and returns `[]`; a successfully parsed body is handled
as in `fetch_all_properties_body`. The function is total: no exception ever
propagates to the caller. -/
def fetch_all_properties (o : HttpOutcome) : List JsonVal :=
  match o with
  | .transportError => []
  | .response status body =>
    if 400 ≤ status ∧ status < 600 then []
    else (body.map fetch_all_properties_body).getD []

/-- C6 counterexample: a response with the non-200 status 201 and a valid
bare-list body is not converted to an empty sequence — `raise_for_status`
only raises for statuses 400-599 — so the claim's "non-200 status" case is
false. -/
theorem fetch_status_counterexample :
    fetch_all_properties (HttpOutcome.response 201 (some (JsonVal.jlist [JsonVal.jobj []]))) =
      [JsonVal.jobj []] ∧
    [JsonVal.jobj []] ≠ ([] : List JsonVal) := by
  constructor
  · rw [fetch_all_properties]
    rw [if_neg (by omega)]
    rfl
  · exact List.cons_ne_nil _ _

/-- C6 amended: for a network/transport error, for a response status in
400-599 (the statuses `raise_for_status` rejects; statuses outside that
range, 200 or not, proceed to body parsing), and for a body that fails to
parse as JSON, `fetch_all_properties` returns an empty sequence; being a
total function, it never raises to its caller. -/
theorem fetch_failure_empty_amended (s : Nat) (b : Option JsonVal) :
    fetch_all_properties HttpOutcome.transportError = [] ∧
    (400 ≤ s → s < 600 → fetch_all_properties (HttpOutcome.response s b) = []) ∧
    fetch_all_properties (HttpOutcome.response s none) = [] := by
  refine ⟨rfl, ?_, ?_⟩
  · intro h4 h6
    rw [fetch_all_properties, if_pos ⟨h4, h6⟩]
  · rw [fetch_all_properties]
    by_cases hs : 400 ≤ s ∧ s < 600
    · rw [if_pos hs]
    · rw [if_neg hs]
      rfl

/-- C6 amended witness: the specification's own scenario, an HTTP 500
response (here with a parseable body), yields the empty sequence. -/
theorem fetch_failure_empty_amended_witness :
    400 ≤ 500 ∧ 500 < 600 ∧
    fetch_all_properties (HttpOutcome.response 500 (some (JsonVal.jlist []))) = [] := by
  exact ⟨by omega, by omega,
    (fetch_failure_empty_amended 500 (some (JsonVal.jlist []))).2.1 (by omega) (by omega)⟩

/-- Records as consumed by the formatters in src/bot.py: the formatters only
interpolate field values into text (and slice the description, which Python
only allows on a string), so values are embedded as the strings they are
rendered as. -/
abbrev SRecord := List (String × String)

/-- Python `p.get(k, d)` on a formatter record. -/
def sGet (p : SRecord) (k : String) (d : String) : String :=
  (alookup k p).getD d

/-- Python `sep.join(xs)`. -/
def pyJoin (sep : String) : List String → String
  | [] => ""
  | [x] => x
  | x :: y :: xs => x ++ sep ++ pyJoin sep (y :: xs)

/-- src/bot.py lines 148-161, `format_property`: the detailed single-property
formatter. F-strings are embedded as explicit concatenation. The location
line is emitted only when the key `"location"` itself is present
(`if "location" in p`); there is no `address` fallback in this formatter. -/
def format_property (p : SRecord) : String :=
  let name := sGet p "name" "Unnamed property"
  let airbnb := sGet p "airbnb_rating" (sGet p "airbnb" "N/A")
  let booking := sGet p "booking_rating" (sGet p "booking" "N/A")
  let pid := sGet p "id" "N/A"
  let extra : List String :=
    (if (alookup "location" p).isSome then ["Location: " ++ sGet p "location" ""] else []) ++
      (if (alookup "url" p).isSome then ["URL: " ++ sGet p "url" ""] else [])
  let extras := if extra = [] then "" else "\n    " ++ pyJoin "\n    " extra
  "🏠 " ++ name ++ " (id: " ++ pid ++ ")\n   ⭐ Airbnb: " ++ airbnb ++
    "\n   ⭐ Booking: " ++ booking ++ extras ++ "\n"

/-- src/bot.py lines 164-170, `format_property_basic`: the basic listing
formatter, whose location is `p.get("location", p.get("address", ""))` and is
shown only when non-empty (Python string truthiness). -/
def format_property_basic (p : SRecord) : String :=
  let name := sGet p "name" "Unnamed property"
  let pid := sGet p "id" "N/A"
  let location := sGet p "location" (sGet p "address" "")
  let loc_str := if location = "" then "" else " - " ++ location
  "🏠 [" ++ pid ++ "] " ++ name ++ loc_str

/-- src/bot.py lines 173-189, `format_complaint`: alias-resolved fields, the
two conditional lines for severity and date (Python string truthiness), the
description truncated as `description[:200]` with an ellipsis appended
exactly when `len(description) > 200`, and the final `"\n".join(lines)`. -/
def format_complaint (c : SRecord) : String :=
  let complaint_id := sGet c "id" "N/A"
  let title := sGet c "title" (sGet c "subject" "No title")
  let description := sGet c "description" (sGet c "message" (sGet c "text" "No description"))
  let status := sGet c "status" "unknown"
  let date := sGet c "date" (sGet c "created_at" (sGet c "createdAt" ""))
  let severity := sGet c "severity" (sGet c "priority" "")
  let lines0 := ["📋 Complaint #" ++ complaint_id ++ ": " ++ title,
    "   Status: " ++ status]
  let lines1 := if severity = "" then lines0 else lines0 ++ ["   Severity: " ++ severity]
  let lines2 := if date = "" then lines1 else lines1 ++ ["   Date: " ++ date]
  let descText := description.take 200 ++ (if 200 < description.length then "..." else "")
  pyJoin "\n" (lines2 ++ ["   Description: " ++ descText])

theorem pyJoin_append_last (sep x : String) :
    ∀ L : List String, L ≠ [] → pyJoin sep (L ++ [x]) = pyJoin sep L ++ sep ++ x
  | [], h => absurd rfl h
  | [_], _ => rfl
  | a :: b :: L, _ => by
    have ih := pyJoin_append_last sep x (b :: L) (by simp)
    show pyJoin sep (a :: (b :: L ++ [x])) = pyJoin sep (a :: b :: L) ++ sep ++ x
    rw [show pyJoin sep (a :: (b :: L ++ [x])) = a ++ sep ++ pyJoin sep (b :: L ++ [x]) from rfl,
      ih, show pyJoin sep (a :: b :: L) = a ++ sep ++ pyJoin sep (b :: L) from rfl]
    simp [String.append_assoc]

theorem exists_rest_of_pyJoin (L : List String) (x t i : String) (hL : L ≠ []) :
    ∃ rest, pyJoin "\n" (L ++ [x ++ (t ++ i)]) = rest ++ x ++ t ++ i := by
  refine ⟨pyJoin "\n" L ++ "\n", ?_⟩
  rw [pyJoin_append_last "\n" _ L hL]
  simp [String.append_assoc]

/-- C7: when the complaint's `description` field (the first alias in the
chain `description`, `message`, `text`) is a string of length greater than
200, the formatted complaint ends with exactly the first 200 characters of
the description followed by the ellipsis marker `...`; when the length is at
most 200 (so `take 200` is the whole string) the description appears
unmodified with no ellipsis appended. -/
theorem complaint_description_truncation (c : SRecord) (d : String)
    (h : alookup "description" c = some d) :
    ∃ rest, format_complaint c =
      rest ++ "   Description: " ++ d.take 200 ++
        (if 200 < d.length then "..." else "") := by
  have hd : sGet c "description" (sGet c "message" (sGet c "text" "No description")) = d := by
    unfold sGet
    rw [h]
    rfl
  simp only [format_complaint, hd]
  by_cases hsev : sGet c "severity" (sGet c "priority" "") = "" <;>
    by_cases hdate : sGet c "date" (sGet c "created_at" (sGet c "createdAt" "")) = "" <;>
      simp only [if_pos, if_neg, hsev, hdate, ite_true, ite_false] <;>
      exact exists_rest_of_pyJoin _ _ _ _ (by simp)

/-- Concrete complaint description of 250 characters, for the C7 witness. -/
def longDesc : String := String.mk (List.replicate 250 'x')

/-- Concrete complaint record holding `longDesc`, for the C7 witness. -/
def complaintEx : SRecord := [("id", "7"), ("description", longDesc)]

/-- C7 witness: the truncation theorem applied to a concrete complaint whose
description has 250 characters. -/
theorem complaint_description_truncation_witness :
    alookup "description" complaintEx = some longDesc ∧
    (∃ rest, format_complaint complaintEx =
      rest ++ "   Description: " ++ longDesc.take 200 ++
        (if 200 < longDesc.length then "..." else "")) :=
  ⟨rfl, complaint_description_truncation complaintEx longDesc rfl⟩

/-- Concrete property record that lacks `location` but has `address`, for the
C9 counterexample and witness. -/
def propNoLocation : SRecord := [("name", "Sea View Flat"), ("address", "12 Harbour Road")]

/-- C9 counterexample: for a record lacking `location` but having `address`,
the detailed single-property formatter does not show the address anywhere —
its output does not even contain the address string — while the basic listing
formatter does show it; so the claim, which asserts the location-then-address
alias resolution for both formatters, is false for the detailed one. -/
theorem property_location_alias_counterexample :
    ¬ ("12 Harbour Road".toList <:+: (format_property propNoLocation).toList) ∧
    ("12 Harbour Road".toList <:+: (format_property_basic propNoLocation).toList) := by
  constructor
  · decide
  · decide

/-- C9 amended: only the basic listing formatter resolves the displayed
location through the ordered alias list location-then-address — for a record
lacking `location` but having a non-empty `address`, the address value is
shown (as the suffix of the listing line); the detailed single-property
formatter never consults the `address` field at all, printing a location line
only when the `location` key itself is present. -/
theorem property_location_alias_amended (p : SRecord) (a : String)
    (hloc : alookup "location" p = none) (haddr : alookup "address" p = some a)
    (ha : a ≠ "") :
    (∃ pre, format_property_basic p = pre ++ a) ∧
    format_property p = format_property (eraseKey "address" p) := by
  constructor
  · have hl : sGet p "location" (sGet p "address" "") = a := by
      unfold sGet
      rw [hloc, haddr]
      rfl
    simp only [format_property_basic, hl]
    rw [if_neg ha]
    refine ⟨"🏠 [" ++ sGet p "id" "N/A" ++ "] " ++ sGet p "name" "Unnamed property" ++ " - ", ?_⟩
    simp [String.append_assoc]
  · have e1 : alookup "name" (eraseKey "address" p) = alookup "name" p :=
      alookup_eraseKey _ _ (by decide) p
    have e2 : alookup "airbnb_rating" (eraseKey "address" p) = alookup "airbnb_rating" p :=
      alookup_eraseKey _ _ (by decide) p
    have e3 : alookup "airbnb" (eraseKey "address" p) = alookup "airbnb" p :=
      alookup_eraseKey _ _ (by decide) p
    have e4 : alookup "booking_rating" (eraseKey "address" p) = alookup "booking_rating" p :=
      alookup_eraseKey _ _ (by decide) p
    have e5 : alookup "booking" (eraseKey "address" p) = alookup "booking" p :=
      alookup_eraseKey _ _ (by decide) p
    have e6 : alookup "id" (eraseKey "address" p) = alookup "id" p :=
      alookup_eraseKey _ _ (by decide) p
    have e7 : alookup "location" (eraseKey "address" p) = alookup "location" p :=
      alookup_eraseKey _ _ (by decide) p
    have e8 : alookup "url" (eraseKey "address" p) = alookup "url" p :=
      alookup_eraseKey _ _ (by decide) p
    simp only [format_property, sGet, e1, e2, e3, e4, e5, e6, e7, e8]

/-- C9 amended witness: the amended theorem applied to the concrete record
`propNoLocation`. -/
theorem property_location_alias_amended_witness :
    alookup "location" propNoLocation = none ∧
    alookup "address" propNoLocation = some "12 Harbour Road" ∧
    "12 Harbour Road" ≠ "" ∧
    ((∃ pre, format_property_basic propNoLocation = pre ++ "12 Harbour Road") ∧
      format_property propNoLocation = format_property (eraseKey "address" propNoLocation)) :=
  ⟨rfl, rfl, by decide,
    property_location_alias_amended propNoLocation "12 Harbour Road" rfl rfl (by decide)⟩
